import Mathlib

/-!
A shallow embedding of the GitHub repository-reader core
(`src/core/integrations/githubReader.js`) and proofs about its public
operations: `listRepoFiles`, `fetchRepoFile`, `searchRepositories`,
`findBusinesses`, `analyzeRepository`, `getTrendingRepos`.

Modelling conventions:
- The Octokit transport surface is passed in as explicit functions
  returning `Except TransportError _`; a thrown transport error is the
  `.error` case, which each public operation catches at its boundary
  exactly where the source has a try/catch.
- JavaScript object fields that may be `undefined`/`null` are `Option`s;
  JS truthiness tests (`if (x)`, `x || d`) are modelled by the
  `jsOrS`/`jsOrN`/`jsTruthyStr` helpers (empty string and zero are falsy).
- The repository tree snapshot consumed by `listRepoFiles` is an
  inductive `GHEntry` tree (remote trees are acyclic); one transport call
  per directory is the `children` list of a `dir` node.
- Library built-ins with no aggregation logic of their own
  (`Buffer.from(x, "base64").toString("utf8")`, `Date#toISOString`
  formatting) are uninterpreted function parameters `b64decode` and
  `formatDate`; `Date.now()` is an explicit `now : Int` in milliseconds.
- In `listRepoFiles` the `path` parameter of the source shadows the
  `path` module, so `path.extname(item.name)` on line 39 raises a
  TypeError for every file item; the embedding keeps that raise as the
  `.error extnameTypeError` case of `jsLoop`.
- Bracket lookups on object literals (`businesses[owner]` on line 189,
  `dateMap[since]` on line 340) consult the `Object.prototype` chain:
  for a key among the prototype's own property names (`protoKeys`) the
  lookup yields a truthy inherited member — modelled by
  `OwnerSlot.inherited` and `DateLookup.inherited` — whose subsequent
  field accesses raise TypeErrors exactly as in the source.
-/

namespace GitHubReader

/-- An error thrown by the remote transport (network/auth/404). -/
structure TransportError where
  message : String

/-- A JavaScript TypeError raised inside a method body. -/
structure JsTypeError where
  message : String
deriving DecidableEq

/-- The TypeError raised by line 39 of the source, where the string
parameter `path` shadows the `path` module. -/
def extnameTypeError : JsTypeError :=
  ⟨"path.extname is not a function"⟩

/-- A node of the remote repository tree snapshot, as served by the
transport's `getContent`: a file leaf or a directory with its listing. -/
inductive GHEntry where
  | file (name path : String) (size : Nat) (download_url : String)
  | dir (name path : String) (children : List GHEntry)

/-- The file record `listRepoFiles` is meant to emit (lines 41-48). -/
structure FileEntry where
  name : String
  path : String
  size : Nat
  download_url : String
  extension : String
deriving DecidableEq

/-- The loop of `listRepoFiles` (lines 37-55) over one directory listing.
A file item evaluates `path.extname(item.name)` where `path` is the
string parameter, raising a TypeError before the extension filter is
ever consulted; a directory item recurses through the recursive call's
own try/catch (so a raise inside a subdirectory yields `[]` for that
subtree only). -/
def jsLoop : List GHEntry → Except JsTypeError (List FileEntry)
  | [] => .ok []
  | .file _ _ _ _ :: _ => .error extnameTypeError
  | .dir _ _ cs :: rest =>
    let sub := match jsLoop cs with
      | .ok l => l
      | .error _ => []
    match jsLoop rest with
    | .ok tail => .ok (sub ++ tail)
    | .error e => .error e

/-- `listRepoFiles` (lines 25-62). `root` is the outcome of the transport
call fetching the contents at the requested path; the surrounding
try/catch turns any raise into `[]`. The `extensions` filter parameter is
carried but, as in the source, never reached. -/
def listRepoFiles (root : Except TransportError (List GHEntry)) (extensions : List String) :
    List FileEntry :=
  match root with
  | .error _ => []
  | .ok contents =>
    match jsLoop contents with
    | .ok l => l
    | .error _ => []

/-- Lower-case a string character-wise (model of `String#toLowerCase`
for the ASCII keyword vocabulary used here). -/
def jsToLower (s : String) : String :=
  ⟨s.data.map Char.toLower⟩

/-- Model of Node's `path.extname` composed with `toLowerCase` (line 39's
intent): the suffix of `name` from its last dot inclusive, lower-cased;
empty when there is no dot or the only dot is the leading character. -/
def extname (name : String) : String :=
  let cs := name.data
  match (List.range cs.length).reverse.find? (fun i => cs.get? i = some '.') with
  | some i => if i = 0 then "" else ⟨(cs.drop i).map Char.toLower⟩
  | none => ""

/-- Modelled from the spec: the intended behaviour of `listRepoFiles`
(spec 4.1 and claim C1) — emit every file in document order depth-first,
keeping a file when the filter is empty or its lower-cased extension
matches a filter entry case-insensitively. The source never reaches its
filter (the TypeError of line 39 fires first), so this definition exists
to state the divergence. -/
def specListFiles : List GHEntry → List String → List FileEntry
  | [], _ => []
  | .file n p s u :: rest, exts =>
    let fileExt := extname n
    (if exts.isEmpty || exts.any (fun ext => jsToLower ext == fileExt) then
      [⟨n, p, s, u, fileExt⟩] else []) ++ specListFiles rest exts
  | .dir _ _ cs :: rest, exts => specListFiles cs exts ++ specListFiles rest exts

/-- The raw blob served by the transport for a single file path
(`response.data` in lines 74-81). -/
structure FileBlob where
  name : String
  path : String
  size : Nat
  content : String
  encoding : String
  sha : String
  download_url : String
deriving DecidableEq

/-- The record returned by `fetchRepoFile` (lines 90-98). -/
structure FileContent where
  name : String
  path : String
  size : Nat
  content : String
  encoding : String
  sha : String
  download_url : String
deriving DecidableEq

/-- `fetchRepoFile` (lines 72-103): decode a base64 payload through
`b64decode` (the `Buffer` built-in), pass other payloads through
unchanged, and catch any transport raise into `none`. -/
def fetchRepoFile (getContent : String → String → String → String → Except TransportError FileBlob)
    (b64decode : String → String) (owner repo filePath ref : String) : Option FileContent :=
  match getContent owner repo filePath ref with
  | .error _ => none
  | .ok file =>
    let content := if file.encoding = "base64" then b64decode file.content else file.content
    some ⟨file.name, file.path, file.size, content, file.encoding, file.sha, file.download_url⟩

/-- A raw repository item of the transport's search response
(lines 123-139 read these fields). -/
structure RawRepo where
  id : Nat
  name : String
  full_name : String
  owner_login : String
  description : Option String
  html_url : String
  clone_url : String
  language : Option String
  stargazers_count : Nat
  forks_count : Nat
  open_issues_count : Nat
  topics : Option (List String)
  created_at : String
  updated_at : String
  license_name : Option String
deriving DecidableEq

/-- The mapped repository summary returned by `searchRepositories`
(lines 123-139). -/
structure RepoSummary where
  id : Nat
  name : String
  full_name : String
  owner : String
  description : Option String
  url : String
  clone_url : String
  language : Option String
  stars : Nat
  forks : Nat
  issues : Nat
  topics : List String
  created_at : String
  updated_at : String
  license : Option String
deriving DecidableEq

/-- The field mapping of lines 123-139, including the JS-truthiness
defaults `repo.topics || []` and `repo.license?.name || null`. -/
def mapRepo (repo : RawRepo) : RepoSummary where
  id := repo.id
  name := repo.name
  full_name := repo.full_name
  owner := repo.owner_login
  description := repo.description
  url := repo.html_url
  clone_url := repo.clone_url
  language := repo.language
  stars := repo.stargazers_count
  forks := repo.forks_count
  issues := repo.open_issues_count
  topics := repo.topics.getD []
  created_at := repo.created_at
  updated_at := repo.updated_at
  license := match repo.license_name with
    | some n => if n = "" then none else some n
    | none => none

/-- JS `o || d` for an optional string (empty string is falsy). -/
def jsOrS (o : Option String) (d : String) : String :=
  match o with
  | some s => if s = "" then d else s
  | none => d

/-- JS `o || d` for an optional number (zero is falsy). -/
def jsOrN (o : Option Nat) (d : Nat) : Nat :=
  match o with
  | some n => if n = 0 then d else n
  | none => d

/-- The caller-facing `options` object of `searchRepositories`. -/
structure SearchOptions where
  sort : Option String := none
  order : Option String := none
  per_page : Option Nat := none
  page : Option Nat := none

/-- The fully defaulted search request sent to the transport
(lines 113-119). -/
structure ResolvedSearchOptions where
  q : String
  sort : String
  order : String
  per_page : Nat
  page : Nat

/-- `searchRepositories` (lines 111-144): apply the `||` defaults, run
the transport search, map items, and catch any raise into `[]`. -/
def searchRepositories (search : ResolvedSearchOptions → Except TransportError (List RawRepo))
    (query : String) (options : SearchOptions) : List RepoSummary :=
  let searchOptions : ResolvedSearchOptions :=
    { q := query
      sort := jsOrS options.sort "stars"
      order := jsOrS options.order "desc"
      per_page := jsOrN options.per_page 30
      page := jsOrN options.page 1 }
  match search searchOptions with
  | .ok items => items.map mapRepo
  | .error _ => []

/-- The account profile served by the transport's `users.getByUsername`
(lines 196-209 read these fields). -/
structure OrgData where
  name : Option String
  type : String
  bio : Option String
  location : Option String
  blog : Option String
  html_url : String
  avatar_url : String
  public_repos : Nat
  followers : Nat
  following : Nat
  created_at : String
deriving DecidableEq

/-- The condensed per-repository record pushed onto a business profile
(lines 222-228). -/
structure CondensedRepo where
  name : String
  description : Option String
  language : Option String
  stars : Nat
  url : String
deriving DecidableEq

/-- A business/owner profile. Fields absent on the minimal "unknown"
entry of lines 214-218 are `none`. -/
structure Business where
  username : String
  name : Option String := none
  type : String
  description : Option String := none
  location : Option String := none
  website : Option String := none
  url : Option String := none
  avatar_url : Option String := none
  public_repos : Option Nat := none
  followers : Option Nat := none
  following : Option Nat := none
  created_at : Option String := none
  repositories : List CondensedRepo
deriving DecidableEq

/-- The full profile built from a successful owner lookup
(lines 197-211). -/
def mkProfile (owner : String) (orgData : OrgData) : Business where
  username := owner
  name := orgData.name
  type := orgData.type
  description := orgData.bio
  location := orgData.location
  website := orgData.blog
  url := some orgData.html_url
  avatar_url := some orgData.avatar_url
  public_repos := some orgData.public_repos
  followers := some orgData.followers
  following := some orgData.following
  created_at := some orgData.created_at
  repositories := []

/-- The minimal profile synthesized when the owner lookup fails
(lines 214-218). -/
def unknownProfile (owner : String) : Business where
  username := owner
  type := "unknown"
  repositories := []

/-- `businesses[owner]` lookup in the insertion-ordered owner map. -/
def lookupBusiness (businesses : List (String × Business)) (owner : String) : Option Business :=
  (businesses.find? (fun p => p.1 == owner)).map (·.2)

/-- `businesses[owner].repositories.push(...)` (line 222). -/
def pushRepo (businesses : List (String × Business)) (owner : String) (r : CondensedRepo) :
    List (String × Business) :=
  businesses.map (fun p =>
    if p.1 == owner then (p.1, { p.2 with repositories := p.2.repositories ++ [r] }) else p)

/-- The condensed record for one search result (lines 223-227). -/
def condense (r : RepoSummary) : CondensedRepo :=
  ⟨r.name, r.description, r.language, r.stars, r.url⟩

/-- The own property names of `Object.prototype` in Node. An object
literal (`businesses = {}` on line 185, `dateMap = {...}` on
lines 334-338) inherits these, so a bracket lookup with one of these
names yields a truthy inherited value instead of `undefined`. -/
def protoKeys : List String :=
  ["constructor", "hasOwnProperty", "isPrototypeOf", "propertyIsEnumerable",
   "toLocaleString", "toString", "valueOf", "__proto__",
   "__defineGetter__", "__defineSetter__", "__lookupGetter__", "__lookupSetter__"]

/-- The value of `businesses[owner]` (line 189): an own entry, a truthy
member inherited from `Object.prototype` (which has no `repositories`
field), or `undefined`. -/
inductive OwnerSlot where
  | own (b : Business)
  | inherited
  | undefined
deriving DecidableEq

/-- `businesses[owner]` through the prototype chain: own entries first,
then the inherited `Object.prototype` members, then `undefined`. -/
def jsGetOwner (businesses : List (String × Business)) (owner : String) : OwnerSlot :=
  match lookupBusiness businesses owner with
  | some b => .own b
  | none => if owner ∈ protoKeys then .inherited else .undefined

/-- The TypeError raised by line 222 when `businesses[owner]` is an
inherited `Object.prototype` member: its `repositories` is undefined. -/
def pushTypeError : JsTypeError :=
  ⟨"Cannot read properties of undefined (reading 'push')"⟩

/-- The state of the grouping loop of lines 187-229: the
insertion-ordered own entries of the `businesses` object, the trace of
owner logins passed to the transport's `users.getByUsername`, and the
pending exception once an iteration has thrown (after a throw the loop
body no longer runs; the catch at line 241 receives the exception). -/
structure AggState where
  businesses : List (String × Business)
  fetchTrace : List String
  failed : Option JsTypeError
deriving DecidableEq

/-- One iteration of the grouping loop of lines 187-229. When the
`!businesses[owner]` guard of line 189 sees an own entry, the condensed
repository is pushed onto it; when it sees a truthy member inherited
from `Object.prototype` (owner logins such as "constructor" or
"toString"), the fetch is skipped and line 222 throws the TypeError,
aborting the loop; only when it sees `undefined` is the owner profile
fetched — a failed fetch falling back to the minimal unknown profile —
before the push. -/
def fbStep (getUser : String → Except TransportError OrgData)
    (st : AggState) (repo : RepoSummary) : AggState :=
  match st.failed with
  | some _ => st
  | none =>
    match jsGetOwner st.businesses repo.owner with
    | .own _ =>
      { st with businesses := pushRepo st.businesses repo.owner (condense repo) }
    | .inherited =>
      { st with failed := some pushTypeError }
    | .undefined =>
      let profile := match getUser repo.owner with
        | .ok orgData => mkProfile repo.owner orgData
        | .error _ => unknownProfile repo.owner
      { businesses := pushRepo (st.businesses ++ [(repo.owner, profile)]) repo.owner (condense repo)
        fetchTrace := st.fetchTrace ++ [repo.owner]
        failed := none }

/-- The grouping loop of lines 187-229 over the whole search result,
starting from the empty owner map, an empty fetch trace and no pending
exception. -/
def fbAggregate (getUser : String → Except TransportError OrgData) (repos : List RepoSummary) :
    AggState :=
  repos.foldl (fbStep getUser) ⟨[], [], none⟩

/-- The criteria object of `findBusinesses`. -/
structure Criteria where
  industry : Option String := none
  technology : Option String := none
  location : Option String := none
  company : Option String := none
  minStars : Option Nat := none
  limit : Option Nat := none

/-- One `if (criteria.key) queries.push(clause)` block of lines 156-170:
the clause is pushed exactly when the value is present and truthy. -/
def jsPushClause (queries : List String) (o : Option String) (clause : String → String) :
    List String :=
  match o with
  | some s => if s = "" then queries else queries ++ [clause s]
  | none => queries

/-- The numeric variant of `jsPushClause`, for `criteria.minStars`
(line 168: `0` is falsy). -/
def jsPushClauseN (queries : List String) (o : Option Nat) (clause : Nat → String) :
    List String :=
  match o with
  | some n => if n = 0 then queries else queries ++ [clause n]
  | none => queries

/-- The query construction of lines 153-177: the five clause blocks in
source order, the `type:org` default when nothing was pushed, and the
space join. -/
def buildBusinessQuery (criteria : Criteria) : String :=
  let queries : List String := []
  let queries := jsPushClause queries criteria.industry (fun s => "topic:" ++ s)
  let queries := jsPushClause queries criteria.technology (fun s => "language:" ++ s)
  let queries := jsPushClause queries criteria.location (fun s => "location:\"" ++ s ++ "\"")
  let queries := jsPushClause queries criteria.company (fun s => s ++ " in:name,description")
  let queries := jsPushClauseN queries criteria.minStars (fun n => "stars:>=" ++ toString n)
  let queries := if queries.length = 0 then ["type:org"] else queries
  String.intercalate " " queries

/-- The clause contributed by one optional string key when its value is
truthy, as a (possibly empty) list. -/
def jsClauseList (o : Option String) (clause : String → String) : List String :=
  match o with
  | some s => if s = "" then [] else [clause s]
  | none => []

/-- The numeric variant of `jsClauseList`. -/
def jsClauseListN (o : Option Nat) (clause : Nat → String) : List String :=
  match o with
  | some n => if n = 0 then [] else [clause n]
  | none => []

/-- The clause list of the amended claim C7: the clauses of the keys
with truthy values, in the fixed source order. -/
def truthyClauses (criteria : Criteria) : List String :=
  jsClauseList criteria.industry (fun s => "topic:" ++ s) ++
  jsClauseList criteria.technology (fun s => "language:" ++ s) ++
  jsClauseList criteria.location (fun s => "location:\"" ++ s ++ "\"") ++
  jsClauseList criteria.company (fun s => s ++ " in:name,description") ++
  jsClauseListN criteria.minStars (fun n => "stars:>=" ++ toString n)

/-- Modelled from the claim C7 wording: every *present* key contributes
its clause, truthy or not, in the fixed order, with the
organization-type default only when no key is present. Compared against
`buildBusinessQuery` to refute the claim as stated. -/
def claimBusinessQuery (criteria : Criteria) : String :=
  let clauses :=
    (match criteria.industry with | some s => ["topic:" ++ s] | none => []) ++
    (match criteria.technology with | some s => ["language:" ++ s] | none => []) ++
    (match criteria.location with | some s => ["location:\"" ++ s ++ "\""] | none => []) ++
    (match criteria.company with | some s => [s ++ " in:name,description"] | none => []) ++
    (match criteria.minStars with | some n => ["stars:>=" ++ toString n] | none => [])
  String.intercalate " " (if clauses.isEmpty then ["type:org"] else clauses)

/-- The search step of `findBusinesses` (lines 177-182): run the built
query with `per_page = criteria.limit || 50`. -/
def reposOf (search : ResolvedSearchOptions → Except TransportError (List RawRepo))
    (criteria : Criteria) : List RepoSummary :=
  searchRepositories search (buildBusinessQuery criteria)
    { sort := some "stars", order := some "desc", per_page := some (jsOrN criteria.limit 50) }

/-- The filter of line 233: `type === 'Organization' || public_repos > 5`
(an absent `public_repos`, as on an unknown profile, is not `> 5`). -/
def profileAcceptable (business : Business) : Bool :=
  business.type == "Organization" ||
    (match business.public_repos with
     | some n => decide (5 < n)
     | none => false)

/-- The relevance score of lines 235-236: the sum of `stars` over the
profile's collected repositories. -/
def profileScore (business : Business) : Nat :=
  business.repositories.foldl (fun sum repo => sum + repo.stars) 0

/-- `Object.values(businesses).filter(...)` of lines 232-233, before the
sort: profiles in owner-first-seen order, filtered — or the empty list
when the grouping loop threw (the catch of line 241). -/
def businessListUnsorted (search : ResolvedSearchOptions → Except TransportError (List RawRepo))
    (getUser : String → Except TransportError OrgData) (criteria : Criteria) : List Business :=
  match (fbAggregate getUser (reposOf search criteria)).failed with
  | some _ => []
  | none =>
    ((fbAggregate getUser (reposOf search criteria)).businesses.map (·.2)).filter
      profileAcceptable

/-- `findBusinesses` (lines 151-245): group, filter, and stable-sort by
descending summed stars (the comparator `bScore - aScore` of line 237
under JavaScript's stable `Array#sort`); a TypeError thrown inside the
grouping loop is caught at line 241 into the empty list. -/
def findBusinesses (search : ResolvedSearchOptions → Except TransportError (List RawRepo))
    (getUser : String → Except TransportError OrgData) (criteria : Criteria) : List Business :=
  match (fbAggregate getUser (reposOf search criteria)).failed with
  | some _ => []
  | none =>
    (((fbAggregate getUser (reposOf search criteria)).businesses.map (·.2)).filter
        profileAcceptable).mergeSort (fun a b => decide (profileScore b ≤ profileScore a))

/-- The repository metadata served by the transport's `repos.get`
(lines 256-257). `updated_at_ms` is the update timestamp in epoch
milliseconds (the source parses the ISO string through `Date`). -/
structure RepoData where
  full_name : String
  description : Option String
  language : Option String
  stargazers_count : Nat
  forks_count : Nat
  open_issues_count : Nat
  topics : Option (List String)
  license_name : Option String
  homepage : Option String
  created_at : String
  updated_at_ms : Int
deriving DecidableEq

/-- The seven business indicators of lines 281-289, in declaration
order. -/
structure BusinessIndicators where
  hasLicense : Bool
  hasDescription : Bool
  hasWebsite : Bool
  highStars : Bool
  activeMaintenance : Bool
  hasTopics : Bool
  hasContributors : Bool
deriving DecidableEq

/-- `Object.values(businessIndicators)` in declaration order. -/
def indicatorValues (bi : BusinessIndicators) : List Bool :=
  [bi.hasLicense, bi.hasDescription, bi.hasWebsite, bi.highStars,
   bi.activeMaintenance, bi.hasTopics, bi.hasContributors]

/-- The `repository` sub-object of the analysis result (lines 303-315). -/
structure RepoReport where
  name : String
  description : Option String
  language : Option String
  stars : Nat
  forks : Nat
  issues : Nat
  topics : Option (List String)
  license : Option String
  homepage : Option String
  created_at : String
  updated_at_ms : Int
deriving DecidableEq

/-- The result of `analyzeRepository` (lines 302-319). -/
structure RepoAnalysis where
  repository : RepoReport
  businessIndicators : BusinessIndicators
  keywordMatches : List String
  businessScore : Nat
deriving DecidableEq

/-- JS truthiness of an optional string field (`!!x`). -/
def jsTruthyStr (o : Option String) : Bool :=
  match o with
  | some s => s != ""
  | none => false

/-- The fixed keyword vocabulary of lines 292-296. -/
def businessKeywords : List String :=
  ["company", "business", "enterprise", "commercial", "product",
   "service", "solution", "platform", "api", "saas", "startup",
   "corporation", "inc", "llc", "ltd", "gmbh"]

/-- `s.includes(sub)`: substring containment. -/
def jsIncludes (s sub : String) : Bool :=
  (List.range (s.data.length + 1)).any (fun i => sub.data.isPrefixOf (s.data.drop i))

/-- One day in milliseconds. -/
def dayMsI : Int := 86400000

/-- `analyzeRepository` (lines 253-324). The README is fetched through
`fetchRepoFile`, which returns `none` rather than raising on absence, so
the catch block of lines 264-278 (the README.rst/README.txt/README
fallback list) is unreachable and does not appear in the embedding: an
absent README yields the empty string. A transport raise from
`repos.get` is caught into `none`. -/
def analyzeRepository (repoGet : String → String → Except TransportError RepoData)
    (getContent : String → String → String → String → Except TransportError FileBlob)
    (b64decode : String → String) (now : Int) (owner repo : String) : Option RepoAnalysis :=
  match repoGet owner repo with
  | .error _ => none
  | .ok repoData =>
    let readmeContent :=
      match fetchRepoFile getContent b64decode owner repo "README.md" "main" with
      | some readme => readme.content
      | none => ""
    let businessIndicators : BusinessIndicators :=
      { hasLicense := repoData.license_name.isSome
        hasDescription := jsTruthyStr repoData.description
        hasWebsite := jsTruthyStr repoData.homepage
        highStars := decide (100 < repoData.stargazers_count)
        activeMaintenance := decide (now - 90 * dayMsI < repoData.updated_at_ms)
        hasTopics := match repoData.topics with
          | some l => decide (0 < l.length)
          | none => false
        hasContributors := decide (10 < repoData.forks_count) }
    let keywordMatches :=
      businessKeywords.filter (fun keyword => jsIncludes (jsToLower readmeContent) keyword)
    some
      { repository :=
          ⟨repoData.full_name, repoData.description, repoData.language,
            repoData.stargazers_count, repoData.forks_count, repoData.open_issues_count,
            repoData.topics, repoData.license_name, repoData.homepage,
            repoData.created_at, repoData.updated_at_ms⟩
        businessIndicators := businessIndicators
        keywordMatches := keywordMatches
        businessScore :=
          (indicatorValues businessIndicators).countP (fun b => b) + keywordMatches.length }

/-- The value of `dateMap[since]` (lines 334-340): an own `Date` entry
for the three window keywords, a truthy member inherited from
`Object.prototype` (for `since` such as "toString" or "constructor"),
or `undefined`. -/
inductive DateLookup where
  | date (ms : Int)
  | inherited
  | undefined
deriving DecidableEq

/-- `dateMap[since]` through the prototype chain (lines 334-340). -/
def dateMapLookup (now : Int) (since : String) : DateLookup :=
  if since = "daily" then .date (now - dayMsI)
  else if since = "weekly" then .date (now - 7 * dayMsI)
  else if since = "monthly" then .date (now - 30 * dayMsI)
  else if since ∈ protoKeys then .inherited
  else .undefined

/-- `dateMap[since] || dateMap.weekly` (line 340): only `undefined` is
falsy; a truthy inherited member is kept, so the weekly fallback does
not engage for it. -/
def jsOrWeekly (now : Int) (l : DateLookup) : DateLookup :=
  match l with
  | .undefined => .date (now - 7 * dayMsI)
  | .date ms => .date ms
  | .inherited => .inherited

/-- `getTrendingRepos` (lines 332-357): pick the window cutoff with the
weekly fallback (line 340), format it through the `Date#toISOString`
date part `formatDate`, append the language clause when `language` is
truthy, and search with `per_page = 30`. When the lookup produced an
inherited `Object.prototype` member, `sinceDate.toISOString()`
(line 341) throws a TypeError, caught at line 353 into the empty
list — no search runs. -/
def getTrendingRepos (search : ResolvedSearchOptions → Except TransportError (List RawRepo))
    (formatDate : Int → String) (now : Int) (language since : String) : List RepoSummary :=
  match jsOrWeekly now (dateMapLookup now since) with
  | .date sinceDate =>
    let dateString := formatDate sinceDate
    let query := "created:>" ++ dateString
    let query := if language = "" then query else query ++ " language:" ++ language
    searchRepositories search query
      { sort := some "stars", order := some "desc", per_page := some 30 }
  | .inherited => []
  | .undefined => []

/-! Concrete stub transports used by the witness theorems. -/

/-- A search result with a single repository owned by `alice`. -/
def rawAlice : RawRepo :=
  ⟨1, "r1", "alice/r1", "alice", none, "u", "c", none, 7, 0, 0, none, "t1", "t2", none⟩

/-- A stub search transport returning only `rawAlice`. -/
def searchOneAlice : ResolvedSearchOptions → Except TransportError (List RawRepo) :=
  fun _ => .ok [rawAlice]

/-- A stub account transport whose lookups always fail. -/
def getUserAlwaysFail : String → Except TransportError OrgData :=
  fun _ => .error ⟨"boom"⟩

/-- A search result with a single repository owned by `constructor` — a
valid GitHub login that collides with an `Object.prototype` property
name. -/
def rawConstructorRepo : RawRepo :=
  ⟨1, "r1", "constructor/r1", "constructor", none, "u", "c", none, 7, 0, 0, none, "t1", "t2",
    none⟩

/-- A stub search transport returning only `rawConstructorRepo`. -/
def searchOneConstructorRepo : ResolvedSearchOptions → Except TransportError (List RawRepo) :=
  fun _ => .ok [rawConstructorRepo]

/-- An organization account profile. -/
def orgOrg : OrgData :=
  ⟨none, "Organization", none, none, none, "h", "av", 1, 0, 0, "c"⟩

/-- A repository owned by `a` with 10 stars. -/
def rawA : RawRepo :=
  ⟨1, "ra", "a/ra", "a", none, "ua", "ca", none, 10, 0, 0, none, "t", "t", none⟩

/-- A repository owned by `b` with 10 stars. -/
def rawB : RawRepo :=
  ⟨2, "rb", "b/rb", "b", none, "ub", "cb", none, 10, 0, 0, none, "t", "t", none⟩

/-- A stub search transport returning `rawA` then `rawB`. -/
def searchAB : ResolvedSearchOptions → Except TransportError (List RawRepo) :=
  fun _ => .ok [rawA, rawB]

/-- A stub account transport returning the same organization profile for
every login. -/
def getUserOrg : String → Except TransportError OrgData :=
  fun _ => .ok orgOrg

/-- The profile `findBusinesses` builds for owner `a` of `rawA`. -/
def profA : Business :=
  { mkProfile "a" orgOrg with repositories := [condense (mapRepo rawA)] }

/-- The profile `findBusinesses` builds for owner `b` of `rawB`. -/
def profB : Business :=
  { mkProfile "b" orgOrg with repositories := [condense (mapRepo rawB)] }

/-- Repository metadata with every indicator source falsy. -/
def rdPlain : RepoData :=
  ⟨"o/r", none, none, 50, 2, 0, none, none, none, "2020-01-01", 0⟩

/-- A README.rst blob whose content contains a business keyword. -/
def blobRst : FileBlob :=
  ⟨"README.rst", "README.rst", 7, "company", "utf-8", "sha", "u"⟩

/-- A stub content transport where `README.md` is absent but
`README.rst` exists (with keyword-bearing content). -/
def getContentRstOnly : String → String → String → String → Except TransportError FileBlob :=
  fun _ _ p _ => if p = "README.rst" then .ok blobRst else .error ⟨"Not Found"⟩

/-- A stub metadata transport returning `rdPlain`. -/
def repoGetPlain : String → String → Except TransportError RepoData :=
  fun _ _ => .ok rdPlain

/-- Repository metadata with all indicator sources set. -/
def rdRich : RepoData :=
  ⟨"o/r", some "d", some "js", 200, 20, 1, some ["a"], some "MIT", some "h", "2020",
    1000000000000⟩

/-- A README.md blob with keyword-bearing content. -/
def blobMd : FileBlob :=
  ⟨"README.md", "README.md", 12, "saas company", "utf-8", "s", "u"⟩

/-- A stub content transport serving only `README.md`. -/
def getContentMd : String → String → String → String → Except TransportError FileBlob :=
  fun _ _ p _ => if p = "README.md" then .ok blobMd else .error ⟨"Not Found"⟩

/-- A stub metadata transport returning `rdRich`. -/
def repoGetRich : String → String → Except TransportError RepoData :=
  fun _ _ => .ok rdRich

/-- A placeholder analysis value for `Option.getD`. -/
def junkAnalysis : RepoAnalysis :=
  ⟨⟨"", none, none, 0, 0, 0, none, none, none, "", 0⟩,
    ⟨false, false, false, false, false, false, false⟩, [], 0⟩

/-- The analysis the embedding computes for the rich stub. -/
def analysisRich : RepoAnalysis :=
  (analyzeRepository repoGetRich getContentMd (fun s => s) 0 "o" "r").getD junkAnalysis

/-- The analysis the embedding computes for the plain stub with only a
README.rst present. -/
def analysisRstOnly : RepoAnalysis :=
  (analyzeRepository repoGetPlain getContentRstOnly (fun s => s) 0 "o" "r").getD junkAnalysis

/-- A stub search transport returning an empty result list. -/
def searchEmptyOk : ResolvedSearchOptions → Except TransportError (List RawRepo) :=
  fun _ => .ok []

/-- A base64-encoded blob for the fetch witness. -/
def blobB64 : FileBlob :=
  ⟨"f", "f", 3, "payload", "base64", "s", "u"⟩

/-- A stub content transport serving `blobB64` everywhere. -/
def getContentB64 : String → String → String → String → Except TransportError FileBlob :=
  fun _ _ _ _ => .ok blobB64

end GitHubReader

namespace GitHubReader

/-! Helper lemmas. -/

theorem jsLoop_ok_nil (cs : List GHEntry) :
    jsLoop cs = .ok [] ∨ jsLoop cs = .error extnameTypeError := by
  induction cs using jsLoop.induct <;>
    simp_all [jsLoop] <;>
    rcases ‹jsLoop _ = Except.ok [] ∨ jsLoop _ = Except.error extnameTypeError› with h | h <;>
    simp [h]

theorem listRepoFiles_empty (root : Except TransportError (List GHEntry)) (exts : List String) :
    listRepoFiles root exts = [] := by
  rcases root with e | cs
  · rfl
  · rcases jsLoop_ok_nil cs with h | h <;> simp [listRepoFiles, h]

theorem pushRepo_keys (businesses : List (String × Business)) (owner : String) (r : CondensedRepo) :
    (pushRepo businesses owner r).map (·.1) = businesses.map (·.1) := by
  induction businesses with
  | nil => rfl
  | cons p rest ih =>
    simp only [pushRepo, List.map_cons] at *
    split <;> simp_all

theorem lookupBusiness_none_iff (businesses : List (String × Business)) (owner : String) :
    lookupBusiness businesses owner = none ↔ owner ∉ businesses.map (·.1) := by
  unfold lookupBusiness
  rw [Option.map_eq_none', List.find?_eq_none]
  constructor
  · intro h hmem
    obtain ⟨p, hp, hpe⟩ := List.mem_map.mp hmem
    have := h p hp
    simp [hpe] at this
  · intro h p hp
    simp only [beq_iff_eq]
    intro he
    exact h (List.mem_map.mpr ⟨p, hp, he⟩)

theorem jsGetOwner_own_iff (businesses : List (String × Business)) (o : String) (b : Business) :
    jsGetOwner businesses o = .own b ↔ lookupBusiness businesses o = some b := by
  unfold jsGetOwner
  cases h : lookupBusiness businesses o
  · by_cases hp : o ∈ protoKeys <;> simp [hp]
  · simp

theorem jsGetOwner_undefined_iff (businesses : List (String × Business)) (o : String) :
    jsGetOwner businesses o = .undefined ↔
      lookupBusiness businesses o = none ∧ o ∉ protoKeys := by
  unfold jsGetOwner
  cases h : lookupBusiness businesses o
  · by_cases hp : o ∈ protoKeys <;> simp [hp]
  · simp

theorem fbStep_trace_keys (getUser : String → Except TransportError OrgData)
    (st : AggState) (repo : RepoSummary)
    (h : st.fetchTrace = st.businesses.map (·.1)) :
    (fbStep getUser st repo).fetchTrace = (fbStep getUser st repo).businesses.map (·.1) := by
  unfold fbStep
  cases hf : st.failed with
  | some e => simpa using h
  | none =>
    cases hg : jsGetOwner st.businesses repo.owner with
    | own b => simpa [pushRepo_keys] using h
    | inherited => simpa using h
    | undefined => simp [pushRepo_keys, h]

theorem fbStep_trace_nodup (getUser : String → Except TransportError OrgData)
    (st : AggState) (repo : RepoSummary)
    (h : st.fetchTrace = st.businesses.map (·.1)) (hn : st.fetchTrace.Nodup) :
    (fbStep getUser st repo).fetchTrace.Nodup := by
  unfold fbStep
  cases hf : st.failed with
  | some e => simpa using hn
  | none =>
    cases hg : jsGetOwner st.businesses repo.owner with
    | own b => simpa using hn
    | inherited => simpa using hn
    | undefined =>
      obtain ⟨hnone, -⟩ := (jsGetOwner_undefined_iff _ _).mp hg
      rw [lookupBusiness_none_iff] at hnone
      simp only [List.nodup_append, List.nodup_singleton, true_and, List.disjoint_singleton]
      refine ⟨hn, ?_⟩
      rw [h]
      exact hnone

theorem fbAggregate_trace_nodup (getUser : String → Except TransportError OrgData)
    (repos : List RepoSummary) :
    (fbAggregate getUser repos).fetchTrace.Nodup := by
  suffices h : ∀ st : AggState,
      st.fetchTrace = st.businesses.map (·.1) → st.fetchTrace.Nodup →
      (repos.foldl (fbStep getUser) st).fetchTrace =
          (repos.foldl (fbStep getUser) st).businesses.map (·.1) ∧
        (repos.foldl (fbStep getUser) st).fetchTrace.Nodup by
    exact (h ⟨[], [], none⟩ rfl List.nodup_nil).2
  induction repos with
  | nil => intro st h hn; exact ⟨h, hn⟩
  | cons repo rest ih =>
    intro st h hn
    exact ih _ (fbStep_trace_keys getUser st repo h) (fbStep_trace_nodup getUser st repo h hn)

theorem lookupBusiness_cons (p : String × Business) (l : List (String × Business)) (o : String) :
    lookupBusiness (p :: l) o = if p.1 = o then some p.2 else lookupBusiness l o := by
  unfold lookupBusiness
  by_cases h : p.1 = o <;> simp [List.find?_cons, h]

theorem lookup_pushRepo (businesses : List (String × Business)) (o' : String) (r : CondensedRepo)
    (o : String) :
    lookupBusiness (pushRepo businesses o' r) o =
      if o = o' then
        (lookupBusiness businesses o).map
          (fun b => { b with repositories := b.repositories ++ [r] })
      else lookupBusiness businesses o := by
  induction businesses with
  | nil => simp [lookupBusiness, pushRepo]
  | cons p rest ih =>
    have hcons : pushRepo (p :: rest) o' r =
        (if p.1 == o' then (p.1, { p.2 with repositories := p.2.repositories ++ [r] }) else p)
          :: pushRepo rest o' r := rfl
    rw [hcons]
    have hkey : (if p.1 == o' then
        (p.1, { p.2 with repositories := p.2.repositories ++ [r] }) else p).1 = p.1 := by
      split <;> rfl
    rw [lookupBusiness_cons, lookupBusiness_cons, hkey]
    by_cases hpo : p.1 = o
    · by_cases hoo : o = o'
      · subst hoo
        simp [hpo]
      · have hne : ¬(p.1 == o') = true := by simp [hpo, hoo]
        simp [hne, hpo, hoo]
    · rw [if_neg hpo, if_neg hpo, ih]

theorem lookupBusiness_append_single (businesses : List (String × Business)) (o' : String)
    (b : Business) (o : String) :
    lookupBusiness (businesses ++ [(o', b)]) o =
      match lookupBusiness businesses o with
      | some x => some x
      | none => if o = o' then some b else none := by
  induction businesses with
  | nil =>
    rw [List.nil_append, lookupBusiness_cons]
    have hnil : lookupBusiness ([] : List (String × Business)) o = none := rfl
    rw [hnil]
    by_cases h : o = o'
    · simp [h]
    · rw [if_neg (fun hh => h hh.symm)]
      simp [h]
  | cons p rest ih =>
    rw [List.cons_append, lookupBusiness_cons, lookupBusiness_cons]
    by_cases h : p.1 = o <;> simp [h, ih]

end GitHubReader

namespace GitHubReader

/-- The condensed records of the repositories of owner `o`, in search
order. -/
def ownerRepos (repos : List RepoSummary) (o : String) : List CondensedRepo :=
  (repos.filter (fun r => r.owner == o)).map condense

/-- The profile a first-seen owner receives before repositories are
pushed: the fetched profile, or the minimal unknown profile on fetch
failure (lines 191-219). -/
def baseProfile (getUser : String → Except TransportError OrgData) (o : String) : Business :=
  match getUser o with
  | .ok orgData => mkProfile o orgData
  | .error _ => unknownProfile o

theorem fbAggregate_lookup (getUser : String → Except TransportError OrgData)
    (repos : List RepoSummary) (st : AggState) (o : String)
    (hclean : ∀ r ∈ repos, r.owner ∉ protoKeys) (hok : st.failed = none) :
    (repos.foldl (fbStep getUser) st).failed = none ∧
    lookupBusiness ((repos.foldl (fbStep getUser) st).businesses) o =
      match lookupBusiness st.businesses o with
      | some b => some { b with repositories := b.repositories ++ ownerRepos repos o }
      | none =>
        if o ∈ repos.map (·.owner) then
          some { baseProfile getUser o with repositories := ownerRepos repos o }
        else none := by
  revert hclean hok
  induction repos generalizing st with
  | nil =>
    intro hclean hok
    refine ⟨hok, ?_⟩
    cases h : lookupBusiness st.businesses o <;> simp [ownerRepos, h]
  | cons repo rest ih =>
    intro hclean hok
    have hrepo : repo.owner ∉ protoKeys := hclean repo (List.mem_cons_self _ _)
    have hrest : ∀ r ∈ rest, r.owner ∉ protoKeys :=
      fun r hr => hclean r (List.mem_cons_of_mem _ hr)
    rw [List.foldl_cons]
    by_cases hro : repo.owner = o
    · subst hro
      cases h : lookupBusiness st.businesses repo.owner with
      | some b =>
        have hstep : fbStep getUser st repo =
            { st with businesses := pushRepo st.businesses repo.owner (condense repo) } := by
          unfold fbStep
          rw [hok, (jsGetOwner_own_iff _ _ _).mpr h]
        rw [hstep]
        obtain ⟨hf, hl⟩ :=
          ih { st with businesses := pushRepo st.businesses repo.owner (condense repo) }
            hrest hok
        refine ⟨hf, ?_⟩
        rw [hl]
        simp only [lookup_pushRepo, if_pos rfl, h, Option.map_some']
        simp [ownerRepos, h]
      | none =>
        have hstep : fbStep getUser st repo =
            ⟨pushRepo (st.businesses ++ [(repo.owner, baseProfile getUser repo.owner)])
                repo.owner (condense repo),
              st.fetchTrace ++ [repo.owner], none⟩ := by
          unfold fbStep baseProfile
          rw [hok, (jsGetOwner_undefined_iff _ _).mpr ⟨h, hrepo⟩]
        rw [hstep]
        obtain ⟨hf, hl⟩ :=
          ih ⟨pushRepo (st.businesses ++ [(repo.owner, baseProfile getUser repo.owner)])
                repo.owner (condense repo),
              st.fetchTrace ++ [repo.owner], none⟩ hrest rfl
        refine ⟨hf, ?_⟩
        rw [hl]
        simp only []
        rw [lookup_pushRepo, if_pos rfl, lookupBusiness_append_single, h]
        cases hg : getUser repo.owner <;>
          simp [ownerRepos, h, baseProfile, hg, mkProfile, unknownProfile]
    · have hne : ¬ o = repo.owner := fun hh => hro hh.symm
      cases h : lookupBusiness st.businesses repo.owner with
      | some b =>
        have hstep : fbStep getUser st repo =
            { st with businesses := pushRepo st.businesses repo.owner (condense repo) } := by
          unfold fbStep
          rw [hok, (jsGetOwner_own_iff _ _ _).mpr h]
        rw [hstep]
        obtain ⟨hf, hl⟩ :=
          ih { st with businesses := pushRepo st.businesses repo.owner (condense repo) }
            hrest hok
        refine ⟨hf, ?_⟩
        rw [hl, lookup_pushRepo, if_neg hne]
        cases h2 : lookupBusiness st.businesses o <;>
          simp [ownerRepos, h2, hro, hne]
      | none =>
        have hstep : fbStep getUser st repo =
            ⟨pushRepo (st.businesses ++ [(repo.owner, baseProfile getUser repo.owner)])
                repo.owner (condense repo),
              st.fetchTrace ++ [repo.owner], none⟩ := by
          unfold fbStep baseProfile
          rw [hok, (jsGetOwner_undefined_iff _ _).mpr ⟨h, hrepo⟩]
        rw [hstep]
        obtain ⟨hf, hl⟩ :=
          ih ⟨pushRepo (st.businesses ++ [(repo.owner, baseProfile getUser repo.owner)])
                repo.owner (condense repo),
              st.fetchTrace ++ [repo.owner], none⟩ hrest rfl
        refine ⟨hf, ?_⟩
        rw [hl, lookup_pushRepo, if_neg hne, lookupBusiness_append_single]
        cases h2 : lookupBusiness st.businesses o with
        | some b2 => simp [ownerRepos, h2, hro, hne]
        | none =>
          rw [if_neg hne]
          simp [ownerRepos, h2, hro, hne]

theorem jsPushClause_append (queries : List String) (o : Option String)
    (clause : String → String) :
    jsPushClause queries o clause = queries ++ jsClauseList o clause := by
  rcases o with _ | s
  · simp [jsPushClause, jsClauseList]
  · by_cases h : s = "" <;> simp [jsPushClause, jsClauseList, h]

theorem jsPushClauseN_append (queries : List String) (o : Option Nat)
    (clause : Nat → String) :
    jsPushClauseN queries o clause = queries ++ jsClauseListN o clause := by
  rcases o with _ | n
  · simp [jsPushClauseN, jsClauseListN]
  · by_cases h : n = 0 <;> simp [jsPushClauseN, jsClauseListN, h]

theorem searchRepositories_length_le
    (search : ResolvedSearchOptions → Except TransportError (List RawRepo))
    (query : String) (options : SearchOptions)
    (hcap : ∀ q r, search q = .ok r → r.length ≤ q.per_page) :
    (searchRepositories search query options).length ≤ jsOrN options.per_page 30 := by
  unfold searchRepositories
  dsimp only
  cases hs : search
      { q := query, sort := jsOrS options.sort "stars", order := jsOrS options.order "desc",
        per_page := jsOrN options.per_page 30, page := jsOrN options.page 1 } with
  | ok items => simpa using hcap _ _ hs
  | error e => simp

end GitHubReader

namespace GitHubReader

/-- Claim C1. The claim states that `listRepoFiles` returns exactly the
files of the tree snapshot passing the extension filter. In the source
the string parameter `path` shadows the `path` module, so
`path.extname(item.name)` raises a TypeError for every file item and the
surrounding catch turns the whole traversal into `[]`: `listRepoFiles`
returns the empty list on every snapshot and filter. The last two
conjuncts evaluate the code and the spec-modelled intent on a one-file
snapshot, exhibiting the divergence. -/
theorem listRepoFiles_always_empty :
    (∀ (root : Except TransportError (List GHEntry)) (exts : List String),
      listRepoFiles root exts = []) ∧
    listRepoFiles (.ok [.file "a.js" "a.js" 10 "u"]) [] = [] ∧
    specListFiles [.file "a.js" "a.js" 10 "u"] [] = [⟨"a.js", "a.js", 10, "u", ".js"⟩] :=
  ⟨fun root exts => listRepoFiles_empty root exts, listRepoFiles_empty _ _,
    by simp only [specListFiles]; decide⟩

/-- Counterexample for claim C2 as stated: `constructor` is a valid
owner login, its profile lookup on the stub transport would fail, and
its repository is among the search results — yet no profile,
unknown-typed or otherwise, is created for it: `businesses["constructor"]`
is truthy through `Object.prototype`, so line 189's guard skips the
fetch, line 222 throws the push TypeError, and the catch of line 241
returns the empty list, dropping the repository and the whole run's
results. -/
theorem findBusinesses_unknown_owner_counterexample :
    getUserAlwaysFail "constructor" = .error ⟨"boom"⟩ ∧
    "constructor" ∈ (reposOf searchOneConstructorRepo {}).map (·.owner) ∧
    lookupBusiness
      (fbAggregate getUserAlwaysFail (reposOf searchOneConstructorRepo {})).businesses
      "constructor" = none ∧
    (fbAggregate getUserAlwaysFail (reposOf searchOneConstructorRepo {})).failed =
      some pushTypeError ∧
    findBusinesses searchOneConstructorRepo getUserAlwaysFail {} = [] :=
  ⟨rfl, by decide, by decide, by decide, by decide⟩

/-- Amended claim C2: in a `findBusinesses` run none of whose result
owners collides with an `Object.prototype` property name, a repository
whose owner profile lookup fails still produces a profile with
accountType "unknown" carrying all of that owner's matched repositories
(they are not dropped), and the grouping loop completes without failure
— so the lookup failure never fails the whole call. (A run containing a
colliding ownerLogin instead throws inside the loop and is caught to
the empty list; see the counterexample. The later acceptance filter of
line 233 is a separate, subsequent step.) -/
theorem findBusinesses_unknown_owner_kept
    (search : ResolvedSearchOptions → Except TransportError (List RawRepo))
    (getUser : String → Except TransportError OrgData) (criteria : Criteria)
    (o : String) (e : TransportError)
    (hclean : ∀ r ∈ reposOf search criteria, r.owner ∉ protoKeys)
    (hfail : getUser o = .error e)
    (hmem : o ∈ (reposOf search criteria).map (·.owner)) :
    (fbAggregate getUser (reposOf search criteria)).failed = none ∧
    lookupBusiness (fbAggregate getUser (reposOf search criteria)).businesses o =
      some { unknownProfile o with
              repositories := ownerRepos (reposOf search criteria) o } := by
  obtain ⟨hf, hl⟩ :=
    fbAggregate_lookup getUser (reposOf search criteria) ⟨[], [], none⟩ o hclean rfl
  refine ⟨hf, ?_⟩
  unfold fbAggregate
  rw [hl]
  have hnil : lookupBusiness (AggState.mk [] [] none).businesses o = none := rfl
  rw [hnil]
  simp only [if_pos hmem, baseProfile, hfail]

/-- Witness for claim C2: with a search stub returning one repository
owned by `alice` (no prototype collision) and an account transport that
always fails, the loop completes and the aggregation map holds an
unknown-typed profile for `alice` carrying that repository. -/
theorem findBusinesses_unknown_owner_kept_witness :
    (fbAggregate getUserAlwaysFail (reposOf searchOneAlice {})).failed = none ∧
    lookupBusiness (fbAggregate getUserAlwaysFail (reposOf searchOneAlice {})).businesses
      "alice" =
      some { unknownProfile "alice" with
              repositories := ownerRepos (reposOf searchOneAlice {}) "alice" } :=
  findBusinesses_unknown_owner_kept searchOneAlice getUserAlwaysFail {} "alice" ⟨"boom"⟩
    (by decide) rfl (by decide)

/-- Claim C3: within one `findBusinesses` aggregation, the owner-profile
transport is invoked at most once per distinct ownerLogin, for every
list of search results — `fetchTrace` is precisely the sequence of
logins passed to `getUser`, and no login occurs in it twice. (Owners
whose login collides with an `Object.prototype` property name are
fetched zero times: the truthy inherited value skips the fetch and the
iteration throws, so the bound holds for them too, and it also holds
for runs aborted mid-way.) -/
theorem findBusinesses_profile_fetch_once (getUser : String → Except TransportError OrgData)
    (repos : List RepoSummary) (u : String) :
    ((fbAggregate getUser repos).fetchTrace.count u) ≤ 1 :=
  List.nodup_iff_count_le_one.mp (fbAggregate_trace_nodup getUser repos) u

/-- Claim C4: the sequence returned by `findBusinesses` is ordered by
non-increasing summed star count, so a profile with a strictly larger
sum precedes one with a smaller sum; and the sort is stable — two
profiles with equal scores keep the relative order they have in the
pre-sort (owner-first-seen, filtered) list. -/
theorem findBusinesses_ranked
    (search : ResolvedSearchOptions → Except TransportError (List RawRepo))
    (getUser : String → Except TransportError OrgData) (criteria : Criteria) :
    (findBusinesses search getUser criteria).Pairwise
      (fun p q => profileScore q ≤ profileScore p) ∧
    (∀ p q, profileScore p = profileScore q →
      List.Sublist [p, q] (businessListUnsorted search getUser criteria) →
      List.Sublist [p, q] (findBusinesses search getUser criteria)) := by
  have htrans : ∀ a b c : Business,
      (decide (profileScore b ≤ profileScore a)) = true →
      (decide (profileScore c ≤ profileScore b)) = true →
      (decide (profileScore c ≤ profileScore a)) = true := by
    intro a b c h1 h2
    simp only [decide_eq_true_eq] at *
    omega
  have htotal : ∀ a b : Business,
      (decide (profileScore b ≤ profileScore a)
        || decide (profileScore a ≤ profileScore b)) = true := by
    intro a b
    simp only [Bool.or_eq_true, decide_eq_true_eq]
    omega
  cases hfa : (fbAggregate getUser (reposOf search criteria)).failed with
  | some e =>
    have h1 : findBusinesses search getUser criteria = [] := by
      unfold findBusinesses
      rw [hfa]
    have h2 : businessListUnsorted search getUser criteria = [] := by
      unfold businessListUnsorted
      rw [hfa]
    rw [h1, h2]
    exact ⟨List.Pairwise.nil, fun _ _ _ hsub => hsub⟩
  | none =>
    have h1 : findBusinesses search getUser criteria =
        (businessListUnsorted search getUser criteria).mergeSort
          (fun a b => decide (profileScore b ≤ profileScore a)) := by
      unfold findBusinesses businessListUnsorted
      rw [hfa]
    constructor
    · rw [h1]
      have h := List.sorted_mergeSort htrans htotal (businessListUnsorted search getUser criteria)
      exact h.imp (fun hab => of_decide_eq_true hab)
    · intro p q hscore hsub
      rw [h1]
      exact List.pair_sublist_mergeSort htrans htotal (by simp [hscore]) hsub

/-- Witness for claim C4: two equal-scored organization profiles built
from a two-repository search stub keep their pre-sort relative order in
the `findBusinesses` output. -/
theorem findBusinesses_ranked_witness :
    List.Sublist [profA, profB] (findBusinesses searchAB getUserOrg {}) := by
  have heq : businessListUnsorted searchAB getUserOrg {} = [profA, profB] := by decide
  exact (findBusinesses_ranked searchAB getUserOrg {}).2 profA profB (by decide)
    (by rw [heq])

/-- Claim C5. The claim states that when README.md is absent an ordered
fallback list of alternate README filenames is tried. In the source,
`fetchRepoFile` never throws — it returns null on absence — so the catch
block holding the fallback loop is unreachable: with README.md absent
but README.rst present and containing the keyword "company",
the analysis still matches zero keywords (conjunct 4), even though the
fallback file exists (conjunct 2) and its content would match
(conjunct 3). Conjunct 1 shows the primary fetch signals absence by
returning none, not by raising. -/
theorem analyzeRepository_no_readme_fallback :
    fetchRepoFile getContentRstOnly (fun s => s) "o" "r" "README.md" "main" = none ∧
    fetchRepoFile getContentRstOnly (fun s => s) "o" "r" "README.rst" "main" =
      some ⟨"README.rst", "README.rst", 7, "company", "utf-8", "sha", "u"⟩ ∧
    jsIncludes (jsToLower "company") "company" = true ∧
    (analyzeRepository repoGetPlain getContentRstOnly (fun s => s) 0 "o" "r").map
      (fun a => a.keywordMatches) = some [] :=
  ⟨rfl, rfl, by decide, by decide⟩

/-- Claim C6: every analysis result's businessScore is the count of true
indicators plus the number of matched keywords; it is bounded by the
indicator count (7) plus the keyword-list length; and each keyword is
matched at most once however often it occurs in the README. -/
theorem analyzeRepository_score
    (repoGet : String → String → Except TransportError RepoData)
    (getContent : String → String → String → String → Except TransportError FileBlob)
    (b64decode : String → String) (now : Int) (owner repo : String) (a : RepoAnalysis)
    (h : analyzeRepository repoGet getContent b64decode now owner repo = some a) :
    a.businessScore =
      (indicatorValues a.businessIndicators).countP (fun b => b) + a.keywordMatches.length ∧
    a.businessScore ≤ 7 + businessKeywords.length ∧
    (∀ k, a.keywordMatches.count k ≤ 1) := by
  unfold analyzeRepository at h
  cases hr : repoGet owner repo with
  | error e => rw [hr] at h; exact absurd h (by simp)
  | ok repoData =>
    rw [hr] at h
    simp only [Option.some.injEq] at h
    subst h
    refine ⟨rfl, ?_, ?_⟩
    · have h1 : (indicatorValues
          { hasLicense := repoData.license_name.isSome
            hasDescription := jsTruthyStr repoData.description
            hasWebsite := jsTruthyStr repoData.homepage
            highStars := decide (100 < repoData.stargazers_count)
            activeMaintenance := decide (now - 90 * dayMsI < repoData.updated_at_ms)
            hasTopics := match repoData.topics with
              | some l => decide (0 < l.length)
              | none => false
            hasContributors := decide (10 < repoData.forks_count) }).countP (fun b => b) ≤ 7 := by
        apply le_trans (List.countP_le_length _)
        rfl
      have h2 : (businessKeywords.filter
          (fun keyword => jsIncludes
            (jsToLower (match fetchRepoFile getContent b64decode owner repo "README.md" "main" with
              | some readme => readme.content
              | none => "")) keyword)).length ≤ businessKeywords.length :=
        List.length_filter_le _ _
      simp only [RepoAnalysis.businessScore]
      omega
    · intro k
      apply List.nodup_iff_count_le_one.mp
      exact (by decide : businessKeywords.Nodup).filter _

/-- Witness for claim C6: the analysis of the rich metadata stub with a
keyword-bearing README satisfies the score equation and bounds. -/
theorem analyzeRepository_score_witness :
    analyzeRepository repoGetRich getContentMd (fun s => s) 0 "o" "r" = some analysisRich ∧
    (analysisRich.businessScore =
        (indicatorValues analysisRich.businessIndicators).countP (fun b => b) +
          analysisRich.keywordMatches.length ∧
      analysisRich.businessScore ≤ 7 + businessKeywords.length ∧
      (∀ k, analysisRich.keywordMatches.count k ≤ 1)) :=
  ⟨by decide,
    analyzeRepository_score repoGetRich getContentMd (fun s => s) 0 "o" "r" analysisRich
      (by decide)⟩

/-- Counterexample for claim C7 as stated: the criteria object whose
only present key is `minStars` with value 0 is sent to the
organization-type default query by the code (JS truthiness skips the
falsy value), while the claim's reading — every present key contributes
its clause — demands "stars:>=0". -/
theorem buildBusinessQuery_claim_counterexample :
    buildBusinessQuery { minStars := some 0 } = "type:org" ∧
    claimBusinessQuery { minStars := some 0 } = "stars:>=0" ∧
    "type:org" ≠ "stars:>=0" :=
  ⟨rfl, rfl, by decide⟩

/-- Amended claim C7: for every criteria object, the query is the
space-join of the clauses of the recognized keys that are present with a
truthy value (non-empty string, non-zero number), in the fixed order
industry, technology, location, company, minStars; when no recognized
key has a truthy value, the query is the organization-type-only
default. -/
theorem buildBusinessQuery_truthy_clauses (criteria : Criteria) :
    buildBusinessQuery criteria =
      String.intercalate " "
        (if (truthyClauses criteria).isEmpty then ["type:org"] else truthyClauses criteria) := by
  unfold buildBusinessQuery truthyClauses
  simp only [jsPushClause_append, jsPushClauseN_append, List.nil_append, List.append_assoc]
  simp [List.isEmpty_iff, List.length_eq_zero]

/-- Counterexample for claim C8 as stated: "toString" is a window
keyword outside {daily, weekly, monthly}, so the claim demands the
7-day fallback filter and a search — but `dateMap["toString"]` is a
truthy member inherited from `Object.prototype`, the `||` fallback
never engages, `sinceDate.toISOString()` throws, and the call returns
the empty list without searching, although the same search stub returns
a repository for every query. -/
theorem getTrendingRepos_claim_counterexample :
    "toString" ∉ ["daily", "weekly", "monthly"] ∧
    getTrendingRepos searchOneAlice (fun _ => "") 0 "" "toString" = [] ∧
    searchRepositories searchOneAlice "created:>"
      { sort := some "stars", order := some "desc", per_page := some 30 } =
      [mapRepo rawAlice] :=
  ⟨by decide, rfl, by decide⟩

/-- Amended claim C8: `getTrendingRepos` uses a created-after cutoff of
exactly 1/7/30 days before evaluation time for the daily/weekly/monthly
window keywords; for every other keyword that is not an
`Object.prototype` property name it falls back to the 7-day cutoff; for
a keyword that is such a name the inherited truthy `dateMap` lookup
suppresses the fallback, `toISOString` throws, and the call returns the
empty list without searching. Whenever a cutoff is selected, the query
is the created-after filter for it with the language clause appended
exactly when `language` is non-empty; and — when the transport honours
`per_page` — at most 30 results are returned. -/
theorem getTrendingRepos_window
    (search : ResolvedSearchOptions → Except TransportError (List RawRepo))
    (formatDate : Int → String) (now : Int) (language since : String)
    (hcap : ∀ q r, search q = .ok r → r.length ≤ q.per_page) :
    dateMapLookup now "daily" = .date (now - dayMsI) ∧
    dateMapLookup now "weekly" = .date (now - 7 * dayMsI) ∧
    dateMapLookup now "monthly" = .date (now - 30 * dayMsI) ∧
    (since ∉ ["daily", "weekly", "monthly"] → since ∉ protoKeys →
      jsOrWeekly now (dateMapLookup now since) = .date (now - 7 * dayMsI)) ∧
    (since ∈ protoKeys →
      getTrendingRepos search formatDate now language since = []) ∧
    (∀ ms, jsOrWeekly now (dateMapLookup now since) = .date ms →
      getTrendingRepos search formatDate now language since =
        searchRepositories search
          ("created:>" ++ formatDate ms ++
            (if language = "" then "" else " language:" ++ language))
          { sort := some "stars", order := some "desc", per_page := some 30 }) ∧
    (getTrendingRepos search formatDate now language since).length ≤ 30 := by
  refine ⟨by simp [dateMapLookup], by simp [dateMapLookup], by simp [dateMapLookup],
    ?_, ?_, ?_, ?_⟩
  · intro h hp
    simp only [List.mem_cons, List.mem_singleton, not_or] at h
    obtain ⟨h1, h2, h3, -⟩ := h
    simp [dateMapLookup, jsOrWeekly, h1, h2, h3, hp]
  · intro hp
    have h1 : since ≠ "daily" := by
      intro hh
      subst hh
      revert hp
      decide
    have h2 : since ≠ "weekly" := by
      intro hh
      subst hh
      revert hp
      decide
    have h3 : since ≠ "monthly" := by
      intro hh
      subst hh
      revert hp
      decide
    unfold getTrendingRepos
    simp [dateMapLookup, jsOrWeekly, h1, h2, h3, hp]
  · intro ms hms
    unfold getTrendingRepos
    rw [hms]
    by_cases hl : language = ""
    · simp [hl]
    · simp [hl, String.append_assoc]
  · unfold getTrendingRepos
    cases hms : jsOrWeekly now (dateMapLookup now since) with
    | date ms =>
      exact le_trans (searchRepositories_length_le search _ _ hcap) (by simp [jsOrN])
    | inherited => simp
    | undefined => simp

/-- Witness for claim C8: with an empty-result search stub (which
honours `per_page` vacuously), the unrecognized keyword "bogus" selects
the 7-day cutoff, the prototype-colliding keyword "toString" yields the
empty list, and the result length is within the cap. -/
theorem getTrendingRepos_window_witness :
    jsOrWeekly 1000000000000 (dateMapLookup 1000000000000 "bogus") =
      .date (1000000000000 - 7 * dayMsI) ∧
    getTrendingRepos searchEmptyOk (fun _ => "") 1000000000000 "" "toString" = [] ∧
    (getTrendingRepos searchEmptyOk (fun _ => "") 1000000000000 "" "bogus").length ≤ 30 := by
  have hcap : ∀ q r, searchEmptyOk q = .ok r → r.length ≤ q.per_page := by
    intro q r h
    have hr : ([] : List RawRepo) = r := by
      simpa [searchEmptyOk] using h
    simp [← hr]
  have h1 := getTrendingRepos_window searchEmptyOk (fun _ => "") 1000000000000 "" "bogus" hcap
  have h2 := getTrendingRepos_window searchEmptyOk (fun _ => "") 1000000000000 "" "toString" hcap
  exact ⟨h1.2.2.2.1 (by decide) (by decide), h2.2.2.2.2.1 (by decide), h1.2.2.2.2.2.2⟩

/-- Claim C9: `fetchRepoFile` returns `none` — never raises — whenever
the remote object is missing or retrieval fails, decodes a
base64-reported payload through the decoder in full, and passes an
already-text payload through unchanged; the returned content is always
either the whole decode or the whole original payload, never a partial
decode. -/
theorem fetchRepoFile_contract
    (getContent : String → String → String → String → Except TransportError FileBlob)
    (b64decode : String → String) (owner repo filePath ref : String) :
    (∀ e, getContent owner repo filePath ref = .error e →
      fetchRepoFile getContent b64decode owner repo filePath ref = none) ∧
    (∀ file, getContent owner repo filePath ref = .ok file → file.encoding = "base64" →
      fetchRepoFile getContent b64decode owner repo filePath ref =
        some ⟨file.name, file.path, file.size, b64decode file.content, file.encoding,
          file.sha, file.download_url⟩) ∧
    (∀ file, getContent owner repo filePath ref = .ok file → file.encoding ≠ "base64" →
      fetchRepoFile getContent b64decode owner repo filePath ref =
        some ⟨file.name, file.path, file.size, file.content, file.encoding,
          file.sha, file.download_url⟩) := by
  refine ⟨?_, ?_, ?_⟩
  · intro e he
    unfold fetchRepoFile
    rw [he]
  · intro file hf henc
    unfold fetchRepoFile
    rw [hf]
    simp [henc]
  · intro file hf henc
    unfold fetchRepoFile
    rw [hf]
    simp [henc]

/-- Witness for claim C9: a base64-encoded stub blob is returned decoded
in full. -/
theorem fetchRepoFile_contract_witness :
    fetchRepoFile getContentB64 (fun _ => "decoded") "o" "r" "f" "main" =
      some ⟨"f", "f", 3, "decoded", "base64", "s", "u"⟩ :=
  (fetchRepoFile_contract getContentB64 (fun _ => "decoded") "o" "r" "f" "main").2.1
    blobB64 rfl rfl

/-- Claim C10: every public operation is total at its boundary — each is
a total function of its inputs in this embedding — and when the
transport fails (every call raising), the list-valued operations return
the empty list and the value-valued ones return `none`, for all
arguments: a failed call is indistinguishable from an empty result. -/
theorem public_ops_total_on_failure (e : TransportError) (b64decode : String → String)
    (formatDate : Int → String) (now : Int) (exts : List String) (query : String)
    (options : SearchOptions) (criteria : Criteria)
    (owner repo filePath ref language since : String) :
    listRepoFiles (.error e) exts = [] ∧
    fetchRepoFile (fun _ _ _ _ => .error e) b64decode owner repo filePath ref = none ∧
    searchRepositories (fun _ => .error e) query options = [] ∧
    findBusinesses (fun _ => .error e) (fun _ => .error e) criteria = [] ∧
    analyzeRepository (fun _ _ => .error e) (fun _ _ _ _ => .error e) b64decode now owner repo
      = none ∧
    getTrendingRepos (fun _ => .error e) formatDate now language since = [] := by
  refine ⟨rfl, rfl, rfl, ?_, rfl, ?_⟩
  · simp [findBusinesses, reposOf, searchRepositories, fbAggregate]
  · unfold getTrendingRepos
    cases jsOrWeekly now (dateMapLookup now since) <;> rfl

end GitHubReader
